import Mathlib

/-!
Verification of the claude-throne `ct_secretsd` core: the secret storage
abstraction (OS-keyring backend and encrypted-file backend, plus the
selector `get_secret_storage`) and the external proxy process lifecycle
controller (`ProxyController`).

The Python source at `ct_secretsd/storage.py` and
`ct_secretsd/proxy_controller.py` is shallowly embedded as pure Lean
functions.  Effects are made explicit:
  * the OS keyring vault is an association list `(service, account) ↦ password`,
    with `keyring.delete_password` failing (raising `PasswordDeleteError`,
    a `KeyringError`) when the entry is absent — the documented contract
    of the `keyring` library;
  * the file system is an association list `path ↦ FData` plus a set of
    paths whose `open` for reading raises an `OSError`;
  * Fernet (an authenticated symmetric scheme, as the spec requires) is
    modelled by a tagged ciphertext space: a token decrypts under exactly
    the key that produced it, every other byte string fails with
    `InvalidToken`, and a malformed key makes the `Fernet` constructor
    raise `ValueError`;
  * `json.dumps`/`json.loads` on the `{api_key, metadata}` record is
    modelled by a tagged plaintext space: `Plain.record r` stands for the
    serialization of a well-formed record, `Plain.text s` for any other
    string (on which `json.loads` raises, or which lacks the fields);
  * Python exceptions are `Except PyErr`; a `try/except` that returns a
    default is a `match` on that `Except`;
  * wall-clock time, fresh pids and fresh Fernet keys are explicit inputs.
-/

namespace CT

/-- Python exception kinds that the embedded code can raise or catch. -/
inductive PyErr where
  | runtimeError
  | invalidToken
  | valueError
  | jsonDecodeError
  | keyringError
  | osError
  | fileNotFound
deriving DecidableEq, Repr

/-- Metadata mapping `string → string`, as an association list. -/
abbrev Meta := List (String × String)

/-- The record `{"api_key": ..., "metadata": ...}` that the encrypted-file
backend serializes per provider. -/
structure Record where
  api_key : String
  metadata : Meta
deriving DecidableEq, Repr

/-- Plaintext strings, split by whether they are the JSON serialization of a
well-formed record: `record r` is `json.dumps` of `r`; `text s` is any other
string (invalid JSON, or JSON without the expected fields). -/
inductive Plain where
  | record (r : Record)
  | text (s : String)
deriving DecidableEq, Repr

/-- Byte strings on disk: valid Fernet key material for key `k`, a Fernet
token produced under key `k` for plaintext `p`, or arbitrary other bytes. -/
inductive FData where
  | keyBytes (k : Nat)
  | token (k : Nat) (p : Plain)
  | junk (n : Nat)
deriving DecidableEq, Repr

/-- Model of `Fernet(key).encrypt(data)`: the `Fernet` constructor raises
`ValueError` on malformed key bytes; otherwise encryption yields the token
for this key and plaintext. -/
def fernetEncrypt : FData → Plain → Except PyErr FData
  | .keyBytes k, p => .ok (.token k p)
  | _, _ => .error .valueError

/-- Model of `Fernet(key).decrypt(data)`: malformed key bytes make the
constructor raise `ValueError`; an authenticated scheme accepts exactly the
tokens produced under the same key and raises `InvalidToken` on everything
else (tampering, wrong key, corrupt bytes). -/
def fernetDecrypt : FData → FData → Except PyErr Plain
  | .keyBytes k, .token k' p => if k' = k then .ok p else .error .invalidToken
  | .keyBytes _, _ => .error .invalidToken
  | _, _ => .error .valueError

/-- Model of `json.loads` followed by field access on the decrypted string:
the serialization of a record parses back to it, anything else raises
`JSONDecodeError` (or lacks the field — observationally identical here,
since `get_key` converts both to an absent result). -/
def jsonLoadsRecord : Plain → Except PyErr Record
  | .record r => .ok r
  | .text _ => .error .jsonDecodeError

/-- Model of `json.dumps` on a metadata mapping (simplified rendering;
the keyring backend only ever serializes, never parses, metadata). -/
def jsonDumps (m : Meta) : String :=
  "\x7b" ++ String.intercalate ", " (m.map fun p => "\"" ++ p.1 ++ "\": \"" ++ p.2 ++ "\"") ++ "\x7d"

/-! ### The OS keyring vault (`keyring` library model) -/

/-- The vault state: `(service, account) ↦ password`. -/
abbrev Vault := List ((String × String) × String)

/-- Model of `keyring.get_password(service, account)`. -/
def kGet : Vault → String → String → Option String
  | [], _, _ => none
  | e :: rest, s, a => if e.1 = (s, a) then some e.2 else kGet rest s a

/-- Remove every entry for `(service, account)` from the vault. -/
def kErase : Vault → String → String → Vault
  | [], _, _ => []
  | e :: rest, s, a => if e.1 = (s, a) then kErase rest s a else e :: kErase rest s a

/-- Model of `keyring.set_password(service, account, password)` (overwrite). -/
def kSet (v : Vault) (s a p : String) : Vault :=
  ((s, a), p) :: kErase v s a

/-- Model of `keyring.delete_password(service, account)`: raises
`PasswordDeleteError` (a `KeyringError`) when no matching entry exists. -/
def kDel (v : Vault) (s a : String) : Except PyErr Vault :=
  if (kGet v s a).isSome then .ok (kErase v s a) else .error .keyringError

/-! ### The file system -/

/-- File system state: stored files, plus the set of paths on which `open`
for reading raises an `OSError` (unreadable content). -/
structure FS where
  files : List (String × FData)
  bad : List String
deriving DecidableEq, Repr

/-- Association-list lookup of a file's content. -/
def fsLookup : List (String × FData) → String → Option FData
  | [], _ => none
  | e :: rest, p => if e.1 = p then some e.2 else fsLookup rest p

/-- Model of `os.path.exists` / `Path.exists` (true also for unreadable files). -/
def FS.pathExists (fs : FS) (p : String) : Bool :=
  (fsLookup fs.files p).isSome

/-- Model of `open(p, 'rb').read()`: raises on unreadable or absent paths. -/
def FS.read (fs : FS) (p : String) : Except PyErr FData :=
  if p ∈ fs.bad then .error .osError
  else
    match fsLookup fs.files p with
    | some d => .ok d
    | none => .error .fileNotFound

/-- Remove every entry for path `p`. -/
def fsErase : List (String × FData) → String → List (String × FData)
  | [], _ => []
  | e :: rest, p => if e.1 = p then fsErase rest p else e :: fsErase rest p

/-- Model of `open(p, 'wb').write(d)` (overwrite; `chmod` is a no-op here). -/
def FS.write (fs : FS) (p : String) (d : FData) : FS :=
  ⟨(p, d) :: fsErase fs.files p, fs.bad⟩

/-- Model of `os.remove(p)`. -/
def FS.remove (fs : FS) (p : String) : FS :=
  ⟨fsErase fs.files p, fs.bad⟩

/-! ### KeyringStorage -/

/-- The fixed service string `SERVICE_NAME = "claude-throne"`. -/
def SERVICE_NAME : String := "claude-throne"

/-- `KeyringStorage`: state is just the configured service name. -/
structure KRS where
  service_name : String
deriving DecidableEq, Repr

/-- `KeyringStorage._get_account_name`. -/
def KRS.accountName (_st : KRS) (provider_id : String) : String :=
  provider_id ++ "-api-key"

/-- The metadata sibling account `f"{provider_id}-metadata"`. -/
def metadataAccount (provider_id : String) : String :=
  provider_id ++ "-metadata"

/-- `KeyringStorage.store_key`: stores metadata under the sibling account
only when `metadata` is truthy (a non-empty mapping — `if metadata:`),
then stores the API key; vault errors would yield `false`, but `set_password`
on a working vault succeeds. -/
def KRS.store_key (st : KRS) (v : Vault) (provider_id api_key : String)
    (metadata : Option Meta) : Bool × Vault :=
  let v1 :=
    match metadata with
    | some m => if m = [] then v else kSet v st.service_name (metadataAccount provider_id) (jsonDumps m)
    | none => v
  (true, kSet v1 st.service_name (st.accountName provider_id) api_key)

/-- `KeyringStorage.get_key`: returns whatever `get_password` yields (the
truthiness test on `key` only selects a log message). -/
def KRS.get_key (st : KRS) (v : Vault) (provider_id : String) : Option String :=
  kGet v st.service_name (st.accountName provider_id)

/-- `KeyringStorage.has_key := get_key is not None`. -/
def KRS.has_key (st : KRS) (v : Vault) (provider_id : String) : Bool :=
  (st.get_key v provider_id).isSome

/-- `KeyringStorage.delete_key`: deleting the metadata entry swallows
`KeyringError`; the result is that of deleting the API-key entry, with a
`KeyringError` there converted to `false`. -/
def KRS.delete_key (st : KRS) (v : Vault) (provider_id : String) : Bool × Vault :=
  let v1 :=
    match kDel v st.service_name (metadataAccount provider_id) with
    | .ok v' => v'
    | .error _ => v
  match kDel v1 st.service_name (st.accountName provider_id) with
  | .ok v2 => (true, v2)
  | .error _ => (false, v1)

/-! ### EncryptedFileStorage -/

/-- A fatal storage initialization error (`StorageError`). -/
inductive StorageError where
  | storageError
deriving DecidableEq, Repr

/-- The key file path `storage_dir / ".encryption_key"`. -/
def keyFilePath (dir : String) : String := dir ++ "/.encryption_key"

/-- `EncryptedFileStorage._get_key_file`: `storage_dir / f"{provider_id}.key"`. -/
def providerPath (dir provider_id : String) : String := dir ++ "/" ++ provider_id ++ ".key"

/-- `EncryptedFileStorage`: storage directory and the loaded key bytes
(whatever `_get_or_create_key` returned — the source does not validate them). -/
structure EFS where
  storage_dir : String
  encKey : FData
deriving DecidableEq, Repr

/-- `EncryptedFileStorage._get_or_create_key`: if the key file exists its raw
bytes are returned unvalidated; otherwise a fresh Fernet key is generated and
written.  A raised read error is caught and re-raised as `StorageError` by the
caller (modelled in `mkEFS`). -/
def getOrCreateKey (dir : String) (fs : FS) (freshKey : Nat) : Except PyErr (FData × FS) :=
  let kf := keyFilePath dir
  if fs.pathExists kf then
    match fs.read kf with
    | .ok d => .ok (d, fs)
    | .error e => .error e
  else
    .ok (.keyBytes freshKey, fs.write kf (.keyBytes freshKey))

/-- `EncryptedFileStorage.__init__`: creates the directory, then loads or
creates the encryption key; any exception there becomes a `StorageError`. -/
def mkEFS (dir : String) (fs : FS) (freshKey : Nat) : Except StorageError (EFS × FS) :=
  match getOrCreateKey dir fs freshKey with
  | .ok (k, fs') => .ok (⟨dir, k⟩, fs')
  | .error _ => .error .storageError

/-- `EncryptedFileStorage.store_key`: serializes `{api_key, metadata or {}}`,
encrypts, writes the blob; any exception (e.g. `ValueError` from a malformed
encryption key) is caught and yields `false` with the file system unchanged. -/
def EFS.store_key (st : EFS) (fs : FS) (provider_id api_key : String)
    (metadata : Option Meta) : Bool × FS :=
  match fernetEncrypt st.encKey (.record ⟨api_key, metadata.getD []⟩) with
  | .ok blob => (true, fs.write (providerPath st.storage_dir provider_id) blob)
  | .error _ => (false, fs)

/-- `EncryptedFileStorage.get_key`: absent file yields `None`; then read,
decrypt, deserialize, with every listed exception (`FileNotFoundError`,
`InvalidToken`, `JSONDecodeError`) and any other exception caught and
converted to `None`.  The `Except` result is always `.ok`: the catch-all
means `get_key` never raises. -/
def EFS.get_key (st : EFS) (fs : FS) (provider_id : String) :
    Except PyErr (Option String) :=
  let path := providerPath st.storage_dir provider_id
  if fs.pathExists path then
    match fs.read path with
    | .error _ => .ok none
    | .ok blob =>
      match fernetDecrypt st.encKey blob with
      | .error _ => .ok none
      | .ok plain =>
        match jsonLoadsRecord plain with
        | .error _ => .ok none
        | .ok r => .ok (some r.api_key)
  else .ok none

/-- `EncryptedFileStorage.has_key`: a bare `os.path.exists` check. -/
def EFS.has_key (st : EFS) (fs : FS) (provider_id : String) : Bool :=
  fs.pathExists (providerPath st.storage_dir provider_id)

/-- `EncryptedFileStorage.delete_key`: removes the file when present and
returns `true` either way. -/
def EFS.delete_key (st : EFS) (fs : FS) (provider_id : String) : Bool × FS :=
  let path := providerPath st.storage_dir provider_id
  if fs.pathExists path then (true, fs.remove path) else (true, fs)

/-! ### get_secret_storage (the storage selector) -/

/-- The resolved backend variant held by the module-level singleton. -/
inductive Backend where
  | keyringB (st : KRS)
  | fileB (st : EFS)
deriving DecidableEq, Repr

/-- The default storage directory `"~/.claude-throne"`. -/
def defaultDir : String := "~/.claude-throne"

/-- `get_secret_storage`: the global `_storage_instance` cache is threaded
explicitly (input cache, output cache).  `probeOk` is whether the throwaway
`set_password`/`delete_password` round-trip against the vault succeeds; on
probe failure the fallback `EncryptedFileStorage()` is constructed inside the
handler, so a `StorageError` raised there propagates. -/
def getSecretStorage (cache : Option Backend) (prefer_keyring probeOk : Bool)
    (fs : FS) (freshKey : Nat) :
    Except StorageError (Backend × Option Backend × FS) :=
  match cache with
  | some b => .ok (b, some b, fs)
  | none =>
    if prefer_keyring then
      if probeOk then
        let b := Backend.keyringB ⟨SERVICE_NAME⟩
        .ok (b, some b, fs)
      else
        match mkEFS defaultDir fs freshKey with
        | .ok (st, fs') => .ok (.fileB st, some (.fileB st), fs')
        | .error e => .error e
    else
      match mkEFS defaultDir fs freshKey with
      | .ok (st, fs') => .ok (.fileB st, some (.fileB st), fs')
      | .error e => .error e

/-! ### Helper lemmas about the vault and the file system -/

theorem kGet_kErase_same (v : Vault) (s a : String) :
    kGet (kErase v s a) s a = none := by
  induction v with
  | nil => rfl
  | cons e rest ih =>
    by_cases he : e.1 = (s, a)
    · simpa [kErase, he] using ih
    · simpa [kErase, kGet, he] using ih

theorem kGet_kErase_other (v : Vault) (s a s' a' : String) (h : (s', a') ≠ (s, a)) :
    kGet (kErase v s a) s' a' = kGet v s' a' := by
  have hc : ¬(s = s' ∧ a = a') := by
    rintro ⟨h1, h2⟩
    exact h (by rw [h1, h2])
  have hc2 : ¬(s' = s ∧ a' = a) := by
    rintro ⟨h1, h2⟩
    exact h (by rw [h1, h2])
  induction v with
  | nil => rfl
  | cons e rest ih =>
    by_cases he : e.1 = (s, a)
    · simp [kErase, kGet, he, hc, ih]
    · by_cases he2 : e.1 = (s', a')
      · simp [kErase, kGet, he, he2, hc2]
      · simp [kErase, kGet, he, he2, ih]

theorem kGet_kSet_same (v : Vault) (s a p : String) :
    kGet (kSet v s a p) s a = some p := by
  simp [kSet, kGet]

theorem kGet_kSet_other (v : Vault) (s a p s' a' : String) (h : (s', a') ≠ (s, a)) :
    kGet (kSet v s a p) s' a' = kGet v s' a' := by
  have h2 : ((s, a) : String × String) ≠ (s', a') := fun hh => h hh.symm
  simp [kSet, kGet, h2, kGet_kErase_other v s a s' a' h]

theorem fsLookup_fsErase_same (l : List (String × FData)) (p : String) :
    fsLookup (fsErase l p) p = none := by
  induction l with
  | nil => rfl
  | cons e rest ih =>
    by_cases he : e.1 = p
    · simpa [fsErase, he] using ih
    · simpa [fsErase, fsLookup, he] using ih

/-- Appending distinct suffixes to the same string gives distinct strings. -/
theorem string_append_right_ne (p a b : String) (h : a ≠ b) : p ++ a ≠ p ++ b := by
  intro he
  apply h
  apply String.ext
  have hd := congrArg String.data he
  rw [String.data_append, String.data_append] at hd
  exact List.append_cancel_left hd

/-- The API-key account and the metadata account of a provider differ. -/
theorem accountName_ne_metadataAccount (st : KRS) (p : String) :
    st.accountName p ≠ metadataAccount p :=
  string_append_right_ne p "-api-key" "-metadata" (by decide)

/-- After `delete_key`, the API-key account is gone whichever branch ran. -/
theorem krs_delete_then_get (kst : KRS) (v : Vault) (provider_id : String) :
    kst.get_key (kst.delete_key v provider_id).2 provider_id = none := by
  unfold KRS.delete_key KRS.get_key kDel
  cases hm : kGet v kst.service_name (metadataAccount provider_id) with
  | some mv =>
    cases hk : kGet (kErase v kst.service_name (metadataAccount provider_id))
        kst.service_name (kst.accountName provider_id) with
    | some kv => simp [hm, hk, kGet_kErase_same]
    | none => simp [hm, hk]
  | none =>
    cases hk : kGet v kst.service_name (kst.accountName provider_id) with
    | some kv => simp [hm, hk, kGet_kErase_same]
    | none => simp [hm, hk]

/-- `delete_key` on the keyring backend returns `true` exactly when the
API-key entry existed (the vault raises on deleting a missing entry, and
that `KeyringError` is converted to `false`). -/
theorem krs_delete_result (kst : KRS) (v : Vault) (provider_id : String) :
    (kst.delete_key v provider_id).1 = (kst.get_key v provider_id).isSome := by
  have hne : (kst.service_name, kst.accountName provider_id) ≠
      (kst.service_name, metadataAccount provider_id) := by
    simp [accountName_ne_metadataAccount]
  unfold KRS.delete_key KRS.get_key kDel
  cases hm : kGet v kst.service_name (metadataAccount provider_id) with
  | some mv =>
    have herase := kGet_kErase_other v kst.service_name (metadataAccount provider_id)
      kst.service_name (kst.accountName provider_id) hne
    cases hk : kGet v kst.service_name (kst.accountName provider_id) with
    | some kv => simp [hm, herase, hk]
    | none => simp [hm, herase, hk]
  | none =>
    cases hk : kGet v kst.service_name (kst.accountName provider_id) with
    | some kv => simp [hm, hk]
    | none => simp [hm, hk]

/-- `get_key` on the encrypted-file backend never raises: every branch of
the embedded `try/except` produces a returned value. -/
theorem efs_get_key_never_raises (st : EFS) (fs : FS) (provider_id : String) :
    ∃ o : Option String, EFS.get_key st fs provider_id = .ok o := by
  unfold EFS.get_key
  dsimp only
  repeat' split
  all_goals exact ⟨_, rfl⟩

/-- When the stored blob does not decrypt to a well-formed record under the
backend's key (tampering, wrong key, malformed key bytes, or a decryptable
string that fails to deserialize), `get_key` returns `None`. -/
theorem efs_get_key_corrupt (st : EFS) (fs : FS) (provider_id : String) (c : FData)
    (hfile : fsLookup fs.files (providerPath st.storage_dir provider_id) = some c)
    (hcorr : ∀ r : Record, fernetDecrypt st.encKey c ≠ .ok (.record r)) :
    EFS.get_key st fs provider_id = .ok none := by
  have hp : fs.pathExists (providerPath st.storage_dir provider_id) = true := by
    simp [FS.pathExists, hfile]
  unfold EFS.get_key
  by_cases hb : providerPath st.storage_dir provider_id ∈ fs.bad
  · simp [hp, FS.read, hb]
  · have hread : fs.read (providerPath st.storage_dir provider_id) = .ok c := by
      simp [FS.read, hb, hfile]
    cases hd : fernetDecrypt st.encKey c with
    | error e => simp [hp, hread, hd]
    | ok plain =>
      cases plain with
      | record r => exact absurd hd (hcorr r)
      | text s => simp [hp, hread, hd, jsonLoadsRecord]

/-! ### ProxyController (`proxy_controller.py`)

The controller's mutable state is `_proc` (a `subprocess.Popen` handle,
modelled by its pid) and `_info` (a `ProxyProcessInfo`).  The OS is an
oracle: `alive : Nat → Bool` answers `poll() is None` for a pid at the
moment of the query, and per-call worlds say whether the port opened within
the 15s timeout, whether `terminate()`/`wait(5)`/`kill()` raised, and what
the final `poll()` in `stop` observed. -/

/-- The dataclass `ProxyProcessInfo {pid, port, started_at}`. -/
structure ProxyProcessInfo where
  pid : Nat
  port : Nat
  started_at : Nat
deriving DecidableEq, Repr

/-- The controller's fields `_proc` (handle, by pid) and `_info`. -/
structure PCState where
  proc : Option Nat
  info : Option ProxyProcessInfo
deriving DecidableEq, Repr

/-- `ProxyController.__init__`: both fields `None`. -/
def PCState.init : PCState := ⟨none, none⟩

/-- `ProxyController.is_running`: `_proc is not None and _proc.poll() is None`,
with `alive pid` answering whether `poll()` returns `None` now. -/
def is_running (s : PCState) (alive : Nat → Bool) : Bool :=
  match s.proc with
  | some pid => alive pid
  | none => false

/-- `ProxyController.info`: `_info if is_running else None`. -/
def infoQ (s : PCState) (alive : Nat → Bool) : Option ProxyProcessInfo :=
  if is_running s alive then s.info else none

/-- Events outside the controller during one `start` call: the pid the OS
assigns to the spawned child, whether `_wait_for_port` saw the port open
within the 15s timeout, and whether `terminate()` on the timeout path raised
(the exception is swallowed either way, so it has no further effect here). -/
structure StartWorld where
  newPid : Nat
  portOpens : Bool
  termRaises : Bool
deriving DecidableEq, Repr

/-- Everything one `start` call did: final controller state, whether a child
was spawned, whether `terminate()` was attempted on it, and the returned
value — `.ok` with `self._info` (an `Option`, since the early-return path
hands back `_info` even when it is `None`) or the raised `RuntimeError`. -/
structure StartResult where
  state : PCState
  spawned : Bool
  termAttempted : Bool
  result : Except PyErr (Option ProxyProcessInfo)
deriving Repr

/-- `ProxyController.start(env, port)`: early-return `self._info` when
`is_running`; otherwise spawn (recording `started_at = now`), wait for the
port, and either record and return the new info, or — on timeout —
best-effort terminate the child and raise `RuntimeError`, leaving `_proc`
set to the spawned handle and `_info` untouched. -/
def PC.start (s : PCState) (alive : Nat → Bool) (w : StartWorld)
    (port now : Nat) : StartResult :=
  if is_running s alive then
    ⟨s, false, false, .ok s.info⟩
  else if w.portOpens then
    let i : ProxyProcessInfo := ⟨w.newPid, port, now⟩
    ⟨⟨some w.newPid, some i⟩, true, false, .ok (some i)⟩
  else
    ⟨⟨some w.newPid, s.info⟩, true, true, .error .runtimeError⟩

/-- Events outside the controller during one `stop` call: whether
`terminate()` raised, whether `wait(timeout=5)` raised `TimeoutExpired`,
whether `kill()` raised (swallowed), and what the final `poll()` in the
`finally` block observed (`true` means an exit code was visible, i.e. the
process was confirmed exited). -/
structure StopWorld where
  termRaises : Bool
  waitTimesOut : Bool
  killRaises : Bool
  exitedAtFinalPoll : Bool
deriving DecidableEq, Repr

/-- Everything one `stop` call did: the returned boolean, the final state,
and which signals were attempted. -/
structure StopResult where
  returned : Bool
  state : PCState
  termSent : Bool
  killSent : Bool
deriving DecidableEq, Repr

/-- `ProxyController.stop()`: `True` immediately when `_proc` is `None`
(a `Popen` object is always truthy, so `if not self._proc` is a `None`
test); otherwise `terminate` + bounded `wait`, with `kill` attempted on the
exception path, and a `finally` block that records whether the final
`poll()` confirmed the exit, clears `_proc` and `_info`, and returns that
boolean (so exceptions never escape). -/
def PC.stop (s : PCState) (w : StopWorld) : StopResult :=
  match s.proc with
  | none => ⟨true, s, false, false⟩
  | some _ =>
    let excPath := w.termRaises || w.waitTimesOut
    ⟨w.exitedAtFinalPoll, ⟨none, none⟩, true, excPath⟩

/-! ### Claim C1 -/

/-- Claim C1, counterexample.  On a fresh controller, with a port that never
opens, `start` does raise the startup failure, but the spawned child's handle
is retained in `_proc` (it is not cleared on the timeout path), and when the
best-effort `terminate` leaves the child alive (`alive = fun _ => true` at the
later query), `is_running` is `true` afterward — the controller is not Idle,
contradicting the claim. -/
theorem c1_start_timeout_counterexample :
    (PC.start PCState.init (fun _ => false) ⟨7, false, false⟩ 3000 0).result =
      .error .runtimeError ∧
    (PC.start PCState.init (fun _ => false) ⟨7, false, false⟩ 3000 0).state.proc = some 7 ∧
    is_running (PC.start PCState.init (fun _ => false) ⟨7, false, false⟩ 3000 0).state
      (fun _ => true) = true :=
  ⟨rfl, rfl, rfl⟩

/-- Claim C1 (amended).  If the port never opens within the timeout, `start`
on a fresh controller attempts to terminate the spawned child (best-effort)
and raises the startup failure `RuntimeError`; `_info` stays absent, so the
`info` property reads `None`; but the child's handle is retained in `_proc`
(not cleared), so the controller is not structurally Idle and `is_running`
afterward reports whatever a liveness poll of the spawned child says —
`false` only if the terminated child has actually exited. -/
theorem c1_start_timeout_failure (alive alive' : Nat → Bool) (w : StartWorld)
    (port now : Nat) (hport : w.portOpens = false) :
    (PC.start PCState.init alive w port now).result = .error .runtimeError ∧
    (PC.start PCState.init alive w port now).termAttempted = true ∧
    (PC.start PCState.init alive w port now).state.proc = some w.newPid ∧
    (PC.start PCState.init alive w port now).state.info = none ∧
    infoQ (PC.start PCState.init alive w port now).state alive' = none ∧
    is_running (PC.start PCState.init alive w port now).state alive' = alive' w.newPid := by
  simp [PC.start, PCState.init, is_running, infoQ, hport]

/-- Witness for C1 (amended) at a concrete world. -/
theorem c1_start_timeout_failure_witness :
    (PC.start PCState.init (fun _ => false) ⟨7, false, true⟩ 3000 0).result =
      .error .runtimeError ∧
    (PC.start PCState.init (fun _ => false) ⟨7, false, true⟩ 3000 0).termAttempted = true ∧
    (PC.start PCState.init (fun _ => false) ⟨7, false, true⟩ 3000 0).state.proc = some 7 ∧
    (PC.start PCState.init (fun _ => false) ⟨7, false, true⟩ 3000 0).state.info = none ∧
    infoQ (PC.start PCState.init (fun _ => false) ⟨7, false, true⟩ 3000 0).state
      (fun _ => false) = none ∧
    is_running (PC.start PCState.init (fun _ => false) ⟨7, false, true⟩ 3000 0).state
      (fun _ => false) = (fun _ => false : Nat → Bool) 7 :=
  c1_start_timeout_failure (fun _ => false) (fun _ => false) ⟨7, false, true⟩ 3000 0 rfl

/-! ### Claim C6 -/

/-- Claim C6.  A first successful `start` (port opens) records and returns
`ProxyProcessInfo {pid, port, started_at}`; a second `start` while that child
is still alive is a pure no-op: it returns the identical info, spawns no
second child (`spawned = false`), attempts no termination, and leaves the
state exactly as it was. -/
theorem c6_start_when_running_noop (alive1 alive2 : Nat → Bool) (w1 w2 : StartWorld)
    (port now port2 now2 : Nat)
    (hport : w1.portOpens = true) (halive : alive2 w1.newPid = true) :
    (PC.start PCState.init alive1 w1 port now).result = .ok (some ⟨w1.newPid, port, now⟩) ∧
    PC.start (PC.start PCState.init alive1 w1 port now).state alive2 w2 port2 now2 =
      ⟨(PC.start PCState.init alive1 w1 port now).state, false, false,
        .ok (some ⟨w1.newPid, port, now⟩)⟩ := by
  simp [PC.start, PCState.init, is_running, hport, halive]

/-- Witness for C6 at a concrete pair of worlds. -/
theorem c6_start_when_running_noop_witness :
    (PC.start PCState.init (fun _ => false) ⟨9, true, false⟩ 4000 11).result =
      .ok (some ⟨9, 4000, 11⟩) ∧
    PC.start (PC.start PCState.init (fun _ => false) ⟨9, true, false⟩ 4000 11).state
      (fun _ => true) ⟨10, true, false⟩ 4001 12 =
      ⟨(PC.start PCState.init (fun _ => false) ⟨9, true, false⟩ 4000 11).state, false, false,
        .ok (some ⟨9, 4000, 11⟩)⟩ :=
  c6_start_when_running_noop (fun _ => false) (fun _ => true) ⟨9, true, false⟩
    ⟨10, true, false⟩ 4000 11 4001 12 rfl rfl

/-! ### Claim C8 -/

/-- Claim C8.  On every path of `stop` the retained handle is cleared
(`_proc = None` afterward, so `is_running` is `false` and `info` is absent
for every later liveness poll); the returned boolean is `true` exactly when
the process was confirmed exited (vacuously on the never-started path, by the
final `poll()` otherwise); and `stop` on a never-started controller returns
`true` without touching anything or signalling any process. -/
theorem c8_stop_clears_state (s : PCState) (w : StopWorld) :
    (PC.stop s w).state.proc = none ∧
    (∀ alive : Nat → Bool, is_running (PC.stop s w).state alive = false ∧
      infoQ (PC.stop s w).state alive = none) ∧
    ((PC.stop s w).returned = true ↔ (s.proc = none ∨ w.exitedAtFinalPoll = true)) ∧
    (s.proc = none → PC.stop s w = ⟨true, s, false, false⟩) ∧
    (∀ pid, s.proc = some pid →
      (PC.stop s w).state.info = none ∧
      (PC.stop s w).returned = w.exitedAtFinalPoll ∧
      (PC.stop s w).termSent = true) := by
  cases hp : s.proc with
  | none => simp [PC.stop, hp, is_running, infoQ]
  | some pid => simp [PC.stop, hp, is_running, infoQ]

/-- Witness for C8: a running controller stopped gracefully (final poll
confirms the exit) ends cleared and returns `true`. -/
theorem c8_stop_clears_state_witness :
    (PC.stop ⟨some 5, some ⟨5, 3000, 0⟩⟩ ⟨false, false, false, true⟩).state.proc = none ∧
    is_running (PC.stop ⟨some 5, some ⟨5, 3000, 0⟩⟩ ⟨false, false, false, true⟩).state
      (fun _ => true) = false ∧
    (PC.stop ⟨some 5, some ⟨5, 3000, 0⟩⟩ ⟨false, false, false, true⟩).returned = true :=
  ⟨(c8_stop_clears_state ⟨some 5, some ⟨5, 3000, 0⟩⟩ ⟨false, false, false, true⟩).1,
   ((c8_stop_clears_state ⟨some 5, some ⟨5, 3000, 0⟩⟩ ⟨false, false, false, true⟩).2.1
      (fun _ => true)).1,
   ((c8_stop_clears_state ⟨some 5, some ⟨5, 3000, 0⟩⟩ ⟨false, false, false, true⟩).2.2.1).mpr
      (Or.inr rfl)⟩

/-! ### Claim C2 -/

/-- Claim C2, counterexample.  On the keyring backend, `delete_key` for a
provider that was never stored does not return `true`: the vault raises
`PasswordDeleteError` on the missing API-key entry and the handler converts
it to `false`. -/
theorem c2_keyring_delete_missing_counterexample :
    (KRS.delete_key ⟨"claude-throne"⟩ [] "openai").1 = false := rfl

/-- Claim C2 (amended).  For both backends `delete_key` followed by `get_key`
returns absent, from any prior state.  `delete_key` on a never-stored
provider succeeds with `true` on the encrypted-file backend (which returns
`true` unconditionally), but on the keyring backend `delete_key` returns
`true` exactly when the API-key entry existed — so it returns `false` for a
never-stored provider. -/
theorem c2_delete_semantics (st : EFS) (fs : FS) (kst : KRS) (v : Vault)
    (provider_id : String) :
    EFS.get_key st (EFS.delete_key st fs provider_id).2 provider_id = .ok none ∧
    (EFS.delete_key st fs provider_id).1 = true ∧
    kst.get_key (kst.delete_key v provider_id).2 provider_id = none ∧
    (kst.delete_key v provider_id).1 = kst.has_key v provider_id := by
  refine ⟨?_, ?_, krs_delete_then_get kst v provider_id, krs_delete_result kst v provider_id⟩
  · unfold EFS.delete_key EFS.get_key
    dsimp only
    by_cases hp : (fsLookup fs.files (providerPath st.storage_dir provider_id)).isSome = true
    · simp [FS.pathExists, hp, FS.remove, fsLookup_fsErase_same]
    · simp [FS.pathExists, hp]
  · unfold EFS.delete_key
    dsimp only
    split <;> rfl

/-- Witness for C2 (amended) at concrete states: an empty file store and a
vault holding only provider `p`'s API key. -/
theorem c2_delete_semantics_witness :
    EFS.get_key ⟨"d", .keyBytes 1⟩
      (EFS.delete_key ⟨"d", .keyBytes 1⟩ ⟨[], []⟩ "p").2 "p" = .ok none ∧
    (EFS.delete_key ⟨"d", .keyBytes 1⟩ ⟨[], []⟩ "p").1 = true ∧
    KRS.get_key ⟨"claude-throne"⟩
      (KRS.delete_key ⟨"claude-throne"⟩ [(("claude-throne", "p-api-key"), "sk")] "p").2 "p" =
      none ∧
    (KRS.delete_key ⟨"claude-throne"⟩ [(("claude-throne", "p-api-key"), "sk")] "p").1 =
      KRS.has_key ⟨"claude-throne"⟩ [(("claude-throne", "p-api-key"), "sk")] "p" :=
  c2_delete_semantics ⟨"d", .keyBytes 1⟩ ⟨[], []⟩ ⟨"claude-throne"⟩
    [(("claude-throne", "p-api-key"), "sk")] "p"

/-! ### Claim C3 -/

/-- Claim C3, counterexample.  A corrupted (but readable) encryption key file
does not make construction fail: `_get_or_create_key` returns the raw bytes
unvalidated, so `EncryptedFileStorage.__init__` succeeds and hands back a
backend carrying the junk key. -/
theorem c3_corrupt_key_accepted_counterexample :
    mkEFS "d" ⟨[("d/.encryption_key", .junk 0)], []⟩ 1 =
      .ok (⟨"d", .junk 0⟩, ⟨[("d/.encryption_key", .junk 0)], []⟩) := rfl

/-- Claim C3 (amended).  Construction of `EncryptedFileStorage` raises
`StorageError` when the key file is unreadable (reading it raises), but a
corrupted readable key file is accepted silently: construction succeeds with
the junk bytes as the key, producing a backend in a usable-looking but broken
state — every `store_key` then returns `false` (the `Fernet` constructor's
`ValueError` is swallowed) and every `get_key` returns absent. -/
theorem c3_key_file_init (dir : String) (fs : FS) (freshKey n : Nat) :
    (fs.pathExists (keyFilePath dir) = true → keyFilePath dir ∈ fs.bad →
      mkEFS dir fs freshKey = .error .storageError) ∧
    (keyFilePath dir ∉ fs.bad → fsLookup fs.files (keyFilePath dir) = some (.junk n) →
      mkEFS dir fs freshKey = .ok (⟨dir, .junk n⟩, fs) ∧
      (∀ pid key md, EFS.store_key ⟨dir, .junk n⟩ fs pid key md = (false, fs)) ∧
      (∀ (fs' : FS) (pid : String), EFS.get_key ⟨dir, .junk n⟩ fs' pid = .ok none)) := by
  constructor
  · intro hex hbad
    unfold mkEFS getOrCreateKey
    simp [hex, FS.read, hbad]
  · intro hgood hlook
    have hex : fs.pathExists (keyFilePath dir) = true := by
      simp [FS.pathExists, hlook]
    refine ⟨?_, ?_, ?_⟩
    · unfold mkEFS getOrCreateKey
      simp [hex, FS.read, hgood, hlook]
    · intro pid key md
      simp [EFS.store_key, fernetEncrypt]
    · intro fs' pid
      unfold EFS.get_key
      dsimp only
      by_cases hp : fs'.pathExists (providerPath dir pid)
      · simp only [hp, if_true]
        cases hr : fs'.read (providerPath dir pid) with
        | error e => simp [hr]
        | ok blob => simp [hr, fernetDecrypt]
      · simp [hp]

/-- Witness for C3 (amended): the unreadable case raises, the corrupt
readable case constructs and then fails per operation. -/
theorem c3_key_file_init_witness :
    mkEFS "d" ⟨[("d/.encryption_key", .junk 0)], ["d/.encryption_key"]⟩ 1 =
      .error .storageError ∧
    mkEFS "e" ⟨[("e/.encryption_key", .junk 2)], []⟩ 1 =
      .ok (⟨"e", .junk 2⟩, ⟨[("e/.encryption_key", .junk 2)], []⟩) ∧
    EFS.store_key ⟨"e", .junk 2⟩ ⟨[("e/.encryption_key", .junk 2)], []⟩ "p" "sk" none =
      (false, ⟨[("e/.encryption_key", .junk 2)], []⟩) ∧
    EFS.get_key ⟨"e", .junk 2⟩ ⟨[("e/.encryption_key", .junk 2)], []⟩ "p" = .ok none :=
  ⟨(c3_key_file_init "d" ⟨[("d/.encryption_key", .junk 0)], ["d/.encryption_key"]⟩ 1 0).1
      (by decide) (by decide),
   ((c3_key_file_init "e" ⟨[("e/.encryption_key", .junk 2)], []⟩ 1 2).2 (by decide) (by decide)).1,
   ((c3_key_file_init "e" ⟨[("e/.encryption_key", .junk 2)], []⟩ 1 2).2 (by decide) (by decide)).2.1
      "p" "sk" none,
   ((c3_key_file_init "e" ⟨[("e/.encryption_key", .junk 2)], []⟩ 1 2).2 (by decide) (by decide)).2.2
      ⟨[("e/.encryption_key", .junk 2)], []⟩ "p"⟩

/-! ### Claim C4 -/

/-- Claim C4, counterexample.  On the keyring backend, after storing provider
`p` with metadata `{"a": "b"}` and then re-storing `p` with a new key and no
metadata, `get_key` returns the new key but the metadata entry in the vault
still holds the serialization of the old `{"a": "b"}`: the metadata of the
latest store (absent) is not what is recoverable, because `store_key` only
touches the metadata account when the provided mapping is truthy. -/
theorem c4_stale_metadata_counterexample :
    KRS.get_key ⟨"claude-throne"⟩
      (KRS.store_key ⟨"claude-throne"⟩
        (KRS.store_key ⟨"claude-throne"⟩ [] "p" "k1" (some [("a", "b")])).2
        "p" "k2" none).2 "p" = some "k2" ∧
    kGet (KRS.store_key ⟨"claude-throne"⟩
        (KRS.store_key ⟨"claude-throne"⟩ [] "p" "k1" (some [("a", "b")])).2
        "p" "k2" none).2 "claude-throne" (metadataAccount "p") =
      some (jsonDumps [("a", "b")]) ∧
    jsonDumps [("a", "b")] ≠ jsonDumps [] :=
  ⟨rfl, rfl, by decide⟩

/-- Claim C4 (amended).  The api_key always round-trips: `store_key` returns
`true` and a following `get_key` returns the stored key, on both backends.
Metadata round-trips on the encrypted-file backend for every input (an absent
mapping is stored as the empty mapping inside the encrypted record).  On the
keyring backend metadata round-trips when the provided mapping is non-empty;
storing with an absent or empty mapping leaves the provider's metadata entry
in the vault exactly as it was (possibly stale). -/
theorem c4_store_get_round_trip (st : EFS) (fs : FS) (kst : KRS) (v : Vault)
    (provider_id api_key : String) (md : Option Meta) (k : Nat)
    (hkey : st.encKey = .keyBytes k)
    (hbad : providerPath st.storage_dir provider_id ∉ fs.bad) :
    (EFS.store_key st fs provider_id api_key md).1 = true ∧
    EFS.get_key st (EFS.store_key st fs provider_id api_key md).2 provider_id =
      .ok (some api_key) ∧
    fsLookup (EFS.store_key st fs provider_id api_key md).2.files
        (providerPath st.storage_dir provider_id) =
      some (.token k (.record ⟨api_key, md.getD []⟩)) ∧
    (KRS.store_key kst v provider_id api_key md).1 = true ∧
    kst.get_key (KRS.store_key kst v provider_id api_key md).2 provider_id = some api_key ∧
    (∀ m : Meta, md = some m → m ≠ [] →
      kGet (KRS.store_key kst v provider_id api_key md).2 kst.service_name
        (metadataAccount provider_id) = some (jsonDumps m)) ∧
    ((md = none ∨ md = some []) →
      kGet (KRS.store_key kst v provider_id api_key md).2 kst.service_name
        (metadataAccount provider_id) =
        kGet v kst.service_name (metadataAccount provider_id)) := by
  have hstore : (EFS.store_key st fs provider_id api_key md).2 =
      fs.write (providerPath st.storage_dir provider_id)
        (.token k (.record ⟨api_key, md.getD []⟩)) := by
    simp [EFS.store_key, hkey, fernetEncrypt]
  have hne : (kst.service_name, metadataAccount provider_id) ≠
      (kst.service_name, kst.accountName provider_id) := by
    intro hh
    exact accountName_ne_metadataAccount kst provider_id (congrArg Prod.snd hh).symm
  refine ⟨?_, ?_, ?_, rfl, ?_, ?_, ?_⟩
  · simp [EFS.store_key, hkey, fernetEncrypt]
  · rw [hstore]
    have hl : fsLookup (fs.write (providerPath st.storage_dir provider_id)
          (.token k (.record ⟨api_key, md.getD []⟩))).files
        (providerPath st.storage_dir provider_id) =
        some (.token k (.record ⟨api_key, md.getD []⟩)) := by
      simp [FS.write, fsLookup]
    have hr : (fs.write (providerPath st.storage_dir provider_id)
          (.token k (.record ⟨api_key, md.getD []⟩))).read
        (providerPath st.storage_dir provider_id) =
        .ok (.token k (.record ⟨api_key, md.getD []⟩)) := by
      simp [FS.read, FS.write, hbad, fsLookup]
    unfold EFS.get_key
    dsimp only
    simp [FS.pathExists, hl, hr, hkey, fernetDecrypt, jsonLoadsRecord]
  · rw [hstore]
    simp [FS.write, fsLookup]
  · simp [KRS.store_key, KRS.get_key, kGet_kSet_same]
  · intro m hmd hm
    subst hmd
    simp only [KRS.store_key, hm, if_neg, KRS.get_key]
    rw [kGet_kSet_other _ _ _ _ _ _ hne]
    exact kGet_kSet_same _ _ _ _
  · intro hmd
    rcases hmd with h | h <;> subst h <;>
      simpa [KRS.store_key] using
        kGet_kSet_other v kst.service_name (kst.accountName provider_id) api_key
          kst.service_name (metadataAccount provider_id) hne

/-- Witness for C4 (amended) at concrete inputs (non-empty metadata). -/
theorem c4_store_get_round_trip_witness :
    (EFS.store_key ⟨"d", .keyBytes 1⟩ ⟨[], []⟩ "p" "sk" (some [("a", "b")])).1 = true ∧
    EFS.get_key ⟨"d", .keyBytes 1⟩
      (EFS.store_key ⟨"d", .keyBytes 1⟩ ⟨[], []⟩ "p" "sk" (some [("a", "b")])).2 "p" =
      .ok (some "sk") ∧
    KRS.get_key ⟨"claude-throne"⟩
      (KRS.store_key ⟨"claude-throne"⟩ [] "p" "sk" (some [("a", "b")])).2 "p" = some "sk" ∧
    kGet (KRS.store_key ⟨"claude-throne"⟩ [] "p" "sk" (some [("a", "b")])).2
      "claude-throne" (metadataAccount "p") = some (jsonDumps [("a", "b")]) := by
  have h := c4_store_get_round_trip ⟨"d", .keyBytes 1⟩ ⟨[], []⟩ ⟨"claude-throne"⟩ []
    "p" "sk" (some [("a", "b")]) 1 rfl (by decide)
  exact ⟨h.1, h.2.1, h.2.2.2.2.1, h.2.2.2.2.2.1 [("a", "b")] rfl (by decide)⟩

/-! ### Claim C5 -/

/-- Claim C5.  If the stored blob for a provider is corrupted — it fails
authenticated decryption under the backend's key, or decrypts to a string
that fails to deserialize into a record — then `get_key` returns absent; and
`get_key` never raises on any state (every branch of its `try/except`
produces a returned value, `.ok` here). -/
theorem c5_get_corrupt_absent (st : EFS) (fs : FS) (provider_id : String) (c : FData)
    (hfile : fsLookup fs.files (providerPath st.storage_dir provider_id) = some c)
    (hcorr : ∀ r : Record, fernetDecrypt st.encKey c ≠ .ok (.record r)) :
    EFS.get_key st fs provider_id = .ok none ∧
    ∀ (fs' : FS) (q : String), ∃ o : Option String, EFS.get_key st fs' q = .ok o :=
  ⟨efs_get_key_corrupt st fs provider_id c hfile hcorr,
   fun fs' q => efs_get_key_never_raises st fs' q⟩

/-- Witness for C5: a junk blob under a valid key yields absent. -/
theorem c5_get_corrupt_absent_witness :
    EFS.get_key ⟨"d", .keyBytes 1⟩ ⟨[("d/p.key", .junk 3)], []⟩ "p" = .ok none := by
  have h := c5_get_corrupt_absent ⟨"d", .keyBytes 1⟩ ⟨[("d/p.key", .junk 3)], []⟩ "p"
    (.junk 3) (by decide) (fun r hr => by simp [fernetDecrypt] at hr)
  exact h.1

/-! ### Claim C7 -/

/-- Claim C7.  On a first call with an empty cache and a failing
credential-store probe, `get_secret_storage` resolves to the encrypted-file
backend (whatever `prefer_keyring` was, since the non-preferring branch also
picks the file backend), caches it, and every subsequent call — with any
`prefer_keyring` and even a now-working probe — returns that same resolved
instance unchanged, for the life of the cache. -/
theorem c7_selector_fallback_cached (fs fs' : FS) (freshKey : Nat) (prefer1 : Bool)
    (st : EFS) (hmk : mkEFS defaultDir fs freshKey = .ok (st, fs')) :
    getSecretStorage none prefer1 false fs freshKey =
      .ok (.fileB st, some (.fileB st), fs') ∧
    ∀ (prefer2 probe2 : Bool) (fs2 : FS) (freshKey2 : Nat),
      getSecretStorage (some (.fileB st)) prefer2 probe2 fs2 freshKey2 =
        .ok (.fileB st, some (.fileB st), fs2) := by
  constructor
  · cases prefer1 <;> simp [getSecretStorage, hmk]
  · intro prefer2 probe2 fs2 freshKey2
    rfl

/-- Witness for C7: first call on an empty file store with a failing probe,
then a second call with the opposite preference and a working probe. -/
theorem c7_selector_fallback_cached_witness :
    getSecretStorage none true false ⟨[], []⟩ 5 =
      .ok (.fileB ⟨defaultDir, .keyBytes 5⟩, some (.fileB ⟨defaultDir, .keyBytes 5⟩),
        ⟨[(keyFilePath defaultDir, .keyBytes 5)], []⟩) ∧
    getSecretStorage (some (.fileB ⟨defaultDir, .keyBytes 5⟩)) false true ⟨[], []⟩ 9 =
      .ok (.fileB ⟨defaultDir, .keyBytes 5⟩, some (.fileB ⟨defaultDir, .keyBytes 5⟩),
        ⟨[], []⟩) := by
  have h := c7_selector_fallback_cached ⟨[], []⟩
    ⟨[(keyFilePath defaultDir, .keyBytes 5)], []⟩ 5 true ⟨defaultDir, .keyBytes 5⟩ rfl
  exact ⟨h.1, h.2 false true ⟨[], []⟩ 9⟩

/-! ### Claim C10 -/

/-- Claim C10.  On the encrypted-file backend, `has_key` only tests file
existence: for a provider whose stored blob is corrupted (it does not decrypt
to a record under the backend's key), `has_key` reports `true` while
`get_key` returns absent — so `has_key = true` does not imply a retrievable
key. -/
theorem c10_has_key_despite_corrupt (st : EFS) (fs : FS) (provider_id : String) (c : FData)
    (hfile : fsLookup fs.files (providerPath st.storage_dir provider_id) = some c)
    (hcorr : ∀ r : Record, fernetDecrypt st.encKey c ≠ .ok (.record r)) :
    EFS.has_key st fs provider_id = true ∧ EFS.get_key st fs provider_id = .ok none :=
  ⟨by simp [EFS.has_key, FS.pathExists, hfile],
   efs_get_key_corrupt st fs provider_id c hfile hcorr⟩

/-- Witness for C10: a token encrypted under a different key than the
backend's. -/
theorem c10_has_key_despite_corrupt_witness :
    EFS.has_key ⟨"w", .keyBytes 1⟩
      ⟨[("w/q.key", .token 2 (.record ⟨"x", []⟩))], []⟩ "q" = true ∧
    EFS.get_key ⟨"w", .keyBytes 1⟩
      ⟨[("w/q.key", .token 2 (.record ⟨"x", []⟩))], []⟩ "q" = .ok none :=
  c10_has_key_despite_corrupt ⟨"w", .keyBytes 1⟩
    ⟨[("w/q.key", .token 2 (.record ⟨"x", []⟩))], []⟩ "q"
    (.token 2 (.record ⟨"x", []⟩)) (by decide)
    (fun r hr => by simp [fernetDecrypt] at hr)

end CT
